import Mathlib

/-!
Verification development for the Takken PDF question-extraction core
(`src/question-parser.js`, `src/config.js`).

JavaScript strings are modelled as `List Char` (UTF-16 code points; all
texts involved are BMP characters, so JS `.length` agrees with
`List.length`).  JS numbers are modelled as `Rat` (the scores and
confidences manipulated here are exact decimal fractions; no float
rounding is relevant to the properties below).  Regular-expression
execution is performed by the JS engine, an external library: a regex's
behaviour on a text is therefore modelled as the stream of match records
it yields (`MatchRec`), and the functions that in the source call
`regex.exec` / `text.matchAll` take that stream as an argument.
-/

namespace Takken

abbrev Str := List Char

/-- JS whitespace characters relevant to `String.prototype.trim`. -/
def isJsSpace (c : Char) : Bool :=
  c = ' ' || c = '\t' || c = '\n' || c = '\r' ||
  c = Char.ofNat 0x0B || c = Char.ofNat 0x0C ||
  c = Char.ofNat 0xA0 || c = Char.ofNat 0x3000 || c = Char.ofNat 0xFEFF

/-- Embeds JS `s.trim()`: strip leading and trailing whitespace. -/
def jsTrim (s : Str) : Str :=
  ((s.dropWhile isJsSpace).reverse.dropWhile isJsSpace).reverse

/-- Whether `pre` is an initial segment of `s` (helper for substring search). -/
def startsWith : Str → Str → Bool
  | [], _ => true
  | _ :: _, [] => false
  | a :: as, b :: bs => a = b && startsWith as bs

/-- Embeds JS `hay.includes(needle)` (substring containment). -/
def hasSub : Str → Str → Bool
  | [], needle => needle.isEmpty
  | c :: rest, needle => startsWith needle (c :: rest) || hasSub rest needle

/-- Left-to-right non-overlapping scan for occurrences of a (non-empty)
pattern: `skip` counts characters still to be jumped over after a hit
(the pattern's length minus the one character consumed by the step). -/
def countOccsAux (pat : Str) : Str → Nat → Nat
  | [], _ => 0
  | c :: rest, skip =>
    if 0 < skip then countOccsAux pat rest (skip - 1)
    else if startsWith pat (c :: rest) then 1 + countOccsAux pat rest (pat.length - 1)
    else countOccsAux pat rest 0

/-- Embeds the match count of a JS global regex whose pattern is a literal
string: non-overlapping left-to-right occurrences of `pat` in `hay` (an
empty pattern matches at every position, as JS does). -/
def countOccs (hay pat : Str) : Nat :=
  if pat.isEmpty then hay.length + 1 else countOccsAux pat hay 0

/-- Embeds JS `String.prototype.toLowerCase` (identity on the Japanese
characters involved; lowers ASCII letters). -/
def toLowerStr (s : Str) : Str := s.map Char.toLower

/-- Decimal digit character for `d < 10`. -/
def digitChar (d : Nat) : Char :=
  match d with
  | 0 => '0' | 1 => '1' | 2 => '2' | 3 => '3' | 4 => '4'
  | 5 => '5' | 6 => '6' | 7 => '7' | 8 => '8' | _ => '9'

/-- Embeds the decimal rendering of a JS number in a template string
(`$\x7bquestion.questionNumber\x7d`). -/
def natRepr (n : Nat) : Str :=
  if _h : n < 10 then [digitChar n]
  else natRepr (n / 10) ++ [digitChar (n % 10)]
  decreasing_by exact Nat.div_lt_self (by omega) (by omega)

/-- Value of a list of decimal digit characters. -/
def digitsToNat (ds : Str) : Nat :=
  ds.foldl (fun acc c => acc * 10 + (c.toNat - 48)) 0

/-- Embeds JS `parseInt` on an optional capture group whose content is a
digit string: skip whitespace, read leading digits, `NaN` (here `none`)
when there are none. -/
def parseIntOpt (s : Option Str) : Option Nat :=
  match s with
  | none => none
  | some cs =>
    let ds := (cs.dropWhile isJsSpace).takeWhile (fun c => c.isDigit)
    if ds.isEmpty then none else some (digitsToNat ds)

/-- Embeds `Utils.clamp(value, min, max) = Math.min(Math.max(value, min), max)`. -/
def clamp (v lo hi : ℚ) : ℚ := min (max v lo) hi

/-- Maximal runs of decimal digits in a text (the matches of `/\d+/g`). -/
def digitRuns : Str → List Str
  | [] => []
  | c :: rest =>
    if c.isDigit then
      (c :: rest.takeWhile (fun d => d.isDigit)) ::
        digitRuns (rest.dropWhile (fun d => d.isDigit))
    else
      digitRuns rest
  termination_by s => s.length
  decreasing_by
  · have := (List.dropWhile_sublist (l := rest) (p := fun d => d.isDigit)).length_le
    simp only [List.length_cons]
    omega
  · simp

/-- Japanese character test embedding the regex class
`[぀-ゟ゠-ヿ一-龯]` from `isValidQuestionBasic`. -/
def isJapaneseChar (c : Char) : Bool :=
  (0x3040 ≤ c.toNat && c.toNat ≤ 0x309F) ||
  (0x30A0 ≤ c.toNat && c.toNat ≤ 0x30FF) ||
  (0x4E00 ≤ c.toNat && c.toNat ≤ 0x9FAF)

def containsJapanese (s : Str) : Bool := s.any isJapaneseChar

/-! ## Configuration (`src/config.js`) -/

/-- `CONFIG.CLEANING.positiveKeywords`. -/
def positiveKeywords : List Str :=
  ["正しい".toList, "適切".toList, "可能".toList, "できる".toList,
   "必要".toList, "義務".toList, "有効".toList]

/-- `CONFIG.CLEANING.negativeKeywords`. -/
def negativeKeywords : List Str :=
  ["誤っている".toList, "不適切".toList, "不可能".toList, "できない".toList,
   "不要".toList, "禁止".toList, "無効".toList]

/-- `CONFIG.PARSING.minQuestionLength`. -/
def minQuestionLength : Nat := 20

/-- `CONFIG.VALIDATION.questionNumberMin` / `questionNumberMax`. -/
def questionNumberMin : Nat := 1
def questionNumberMax : Nat := 99999

/-- `CONFIG.PARSING.confidence.maxThreshold`. -/
def maxThreshold : ℚ := 95

/-- `CONFIG.PARSING.confidence.minThreshold`. -/
def minThreshold : ℚ := 20

/-- The `type` tags of `CONFIG.PARSING.questionNumberPatterns`, plus the
`answer_anchored` tag tested for in the earlier `detectWithPattern`. -/
inductive PType where
  | question_with_text | dai_question | number_only | parentheses
  | square_brackets | q_format | takken_style1 | takken_style2
  | five_digit_number | takken_year_number | simple_number
  | number_start_takken | answer_anchored
  deriving DecidableEq, Repr

/-- One entry of `CONFIG.PARSING.questionNumberPatterns`.  The regex itself
is executed by the JS engine; only its name, declared confidence and type
tag are data consumed by the parser's scoring logic. -/
structure PatternConfig where
  name : Str
  confidence : ℚ
  ptype : PType
  deriving DecidableEq

/-- `CONFIG.PARSING.questionNumberPatterns` (names, declared confidences and
type tags of the twelve catalog entries, in declaration order). -/
def questionNumberPatterns : List PatternConfig :=
  [⟨"標準問題形式".toList, 95/100, .question_with_text⟩,
   ⟨"第N問形式".toList, 90/100, .dai_question⟩,
   ⟨"番号のみ形式".toList, 80/100, .number_only⟩,
   ⟨"括弧番号形式".toList, 85/100, .parentheses⟩,
   ⟨"四角括弧形式".toList, 90/100, .square_brackets⟩,
   ⟨"Q番号形式".toList, 75/100, .q_format⟩,
   ⟨"宅建形式1".toList, 85/100, .takken_style1⟩,
   ⟨"宅建形式2".toList, 85/100, .takken_style2⟩,
   ⟨"5桁問題番号".toList, 90/100, .five_digit_number⟩,
   ⟨"宅建年度番号形式".toList, 95/100, .takken_year_number⟩,
   ⟨"シンプル数字".toList, 70/100, .simple_number⟩,
   ⟨"数字開始宅建形式".toList, 90/100, .number_start_takken⟩]

/-! ## Data model -/

/-- A choice attached to a question. -/
structure Choice where
  number : Nat
  symbol : Str
  text : Str
  deriving DecidableEq

/-- The `metadata` object attached to a question by the various producers. -/
structure QMetadata where
  pattern : Str := []
  extractedAt : Str := []
  detectedPattern : Str := []
  fullMatch : Str := []
  position : Nat := 0
  hasAnswer : Bool := false
  answerGuessed : Bool := false
  explanationGenerated : Bool := false
  deriving DecidableEq

/-- The six-dimensional quality score built by
`calculateMultiDimensionalQuality`. -/
structure QualityScore where
  totalScore : ℚ
  questionLength : ℚ
  choiceCount : ℚ
  choiceQuality : ℚ
  answerPresence : ℚ
  explanationQuality : ℚ
  formatConsistency : ℚ
  confidence : ℤ
  deriving DecidableEq

/-- The central Question record.  `answer` is `none` for JS `null`; the JS
falsy empty string is `some []`.  `questionNumber = 0` models a falsy
number. -/
structure Question where
  id : Nat := 0
  questionNumber : Nat
  question : Str
  answer : Option Str
  explanation : Str
  confidence : ℚ
  choices : List Choice := []
  sectionName : Str := []
  patternUsed : Str := []
  metadata : QMetadata := {}
  qualityScore : Option QualityScore := none
  createdAt : Str := []
  deriving DecidableEq

/-- One record of a JS regex match: `match[0]`, the capture groups
`match[1]`–`match[3]` (absent groups are `none`), and `match.index`. -/
structure MatchRec where
  m0 : Str := []
  g1 : Option Str := none
  g2 : Option Str := none
  g3 : Option Str := none
  idx : Nat := 0
  deriving DecidableEq

/-- Result object of a `detectWithPattern` call. -/
structure DetectResult where
  questions : List Question
  confidence : ℚ
  coverage : ℚ
  totalMatches : Nat := 0
  validQuestions : Nat := 0
  deriving DecidableEq

/-- One entry of the `detectionResults` array built by
`detectQuestionsAdaptive`. -/
structure DetectionEntry where
  pattern : PatternConfig
  questions : List Question
  confidence : ℚ
  coverage : ℚ
  deriving DecidableEq

/-- The correct-answer marker `〇` (U+3007). -/
def maru : Str := "〇".toList

/-- The wrong-answer marker `×` (U+00D7). -/
def batsu : Str := "×".toList

/-- JS falsiness of the `answer` field: `null`/`undefined` or the empty
string. -/
def isFalsyAnswer : Option Str → Bool
  | none => true
  | some s => s.isEmpty

/-! ## Keyword inference and explanation generation -/

/-- Result object of `detectAnswerFromKeywords`. -/
structure AnswerHit where
  answer : Str
  fullMatch : Str
  patternName : Str
  confidence : ℚ
  deriving DecidableEq

/-- The positive counting loop of `detectAnswerFromKeywords`: how many of
the configured positive keywords occur in the lower-cased line (one point
per keyword present, regardless of repetitions). -/
def posPresent (line : Str) : Nat :=
  (positiveKeywords.filter (fun k => hasSub (toLowerStr line) k)).length

/-- The negative counting loop of `detectAnswerFromKeywords`. -/
def negPresent (line : Str) : Nat :=
  (negativeKeywords.filter (fun k => hasSub (toLowerStr line) k)).length

/-- Embeds `detectAnswerFromKeywords` (question-parser.js:1129): counts how
many configured positive / negative keywords occur in the lower-cased line
and infers `〇` when the positive count is larger and at least 2, `×`
symmetrically, otherwise nothing. -/
def detectAnswerFromKeywords (line : Str) : Option AnswerHit :=
  let positiveScore := posPresent line
  let negativeScore := negPresent line
  if positiveScore > negativeScore && positiveScore ≥ 2 then
    some ⟨maru, line, "keyword_inference".toList, 7/10⟩
  else if negativeScore > positiveScore && negativeScore ≥ 2 then
    some ⟨batsu, line, "keyword_inference".toList, 7/10⟩
  else
    none

/-- Embeds `guessAnswerFromQuestion` (question-parser.js:1614): counts
keyword occurrences, adds 1 to the positive side for interrogative
endings and 1 to the negative side for negation forms, and returns `〇`
when strictly more positive, `×` otherwise (ties included). -/
def guessAnswerFromQuestion (questionText : Str) : Str :=
  if questionText.isEmpty then batsu
  else
    let text := toLowerStr questionText
    let positiveScore := (positiveKeywords.map (fun k => countOccs text k)).sum
    let negativeScore := (negativeKeywords.map (fun k => countOccs text k)).sum
    let positiveScore :=
      if hasSub text "か。".toList || hasSub text "でしょうか".toList ||
          hasSub text "ですか".toList then positiveScore + 1 else positiveScore
    let negativeScore :=
      if hasSub text "ない".toList || hasSub text "でない".toList ||
          hasSub text "ではない".toList then negativeScore + 1 else negativeScore
    if positiveScore > negativeScore then maru else batsu

/-- Embeds `generateExplanation` (question-parser.js:1662): a fixed
per-section correct/incorrect template, with one topical sentence
appended on keyword match. -/
def generateExplanation (questionText : Str) (answer : Option Str) (sectionName : Str) : Str :=
  let isCorrect := answer = some maru
  let name := if sectionName.isEmpty then "その他".toList else sectionName
  let base :=
    if name = "権利関係".toList then
      if isCorrect then "民法および関連法の規定により、この記述は正しいです。権利関係の基本的な理解を深めることが重要です。".toList
      else "民法および関連法の規定により、この記述は誤りです。正しい法律関係を確認しましょう。".toList
    else if name = "宅建業法".toList then
      if isCorrect then "宅建業法の規定により、この記述は正しいです。宅建業者の義務や制限について正確に理解しましょう。".toList
      else "宅建業法の規定により、この記述は誤りです。宅建業法の正しい内容を確認することが重要です。".toList
    else if name = "法令上の制限".toList then
      if isCorrect then "法令上の制限に関する規定により、この記述は正しいです。各種法令の制限内容を正確に把握しましょう。".toList
      else "法令上の制限に関する規定により、この記述は誤りです。関連する法令の正しい制限内容を確認しましょう。".toList
    else
      if isCorrect then "税法およびその他の関連法令により、この記述は正しいです。不動産に関する税制の理解を深めましょう。".toList
      else "税法およびその他の関連法令により、この記述は誤りです。正しい税制や評価方法を確認しましょう。".toList
  if hasSub questionText "契約".toList then
    base ++ " 契約の成立要件や効力について詳しく学習することをお勧めします。".toList
  else if hasSub questionText "登記".toList then
    base ++ " 不動産登記法の仕組みと手続きについて理解を深めましょう。".toList
  else if hasSub questionText "免許".toList then
    base ++ " 免許制度の詳細と更新手続きについて確認しておきましょう。".toList
  else if hasSub questionText "重要事項".toList then
    base ++ " 重要事項説明書の記載事項と説明義務について復習しましょう。".toList
  else
    base

/-! ## Text cleaning (modelled from the spec)

`finalizeQuestion` calls `TextCleaner.cleanQuestionText` and
`TextCleaner.cleanExplanationText`; `text-cleaner.js` is not among the
source files under `src/`. -/

/-- Split a text at newline characters. -/
def splitLines : Str → List Str
  | [] => [[]]
  | c :: rest =>
    match splitLines rest with
    | [] => [[c]]
    | l :: ls => if c = '\n' then [] :: l :: ls else (c :: l) :: ls

/-- Bullet glyphs stripped by the cleaner (the glyph set the parser treats
as decorative, cf. `isIgnorableLine`). -/
def bulletChars : List Char := ['・', '●', '○', '▲', '△', '□', '■', '◆']

/-- Strip a leading question-number prefix (digits plus trailing
punctuation) and leading bullet glyphs from a line. -/
def stripLead (l : Str) : Str :=
  let noNum :=
    if (l.takeWhile (fun c => c.isDigit)).isEmpty then l
    else (l.dropWhile (fun c => c.isDigit)).dropWhile
      (fun c => c = '．' || c = '.' || c = '。' || c = '）' || c = ')' || c = ' ')
  noNum.dropWhile (fun c => bulletChars.contains c)

/-- Merge every line shorter than 20 characters into its preceding line. -/
def mergeShortStep (racc : List Str) (l : Str) : List Str :=
  match racc with
  | [] => [l]
  | p :: rest => if l.length < 20 then (p ++ ' ' :: l) :: rest else l :: p :: rest

def mergeShortLinesSpec (ls : List Str) : List Str :=
  (ls.foldl mergeShortStep []).reverse

/-- Modelled from the spec: `TextCleaner.cleanQuestionText` is not under
`src/` (`text-cleaner.js` is missing); per spec §4.6 step 3 it strips a
leading question-number prefix and bullet glyphs, merges lines under 20
characters into the preceding line, and joins the lines with spaces. -/
def cleanQuestionText (s : Str) : Str :=
  match splitLines s with
  | [] => []
  | l :: ls => List.intercalate [' '] (mergeShortLinesSpec (stripLead l :: ls))

/-- Modelled from the spec: `TextCleaner.cleanExplanationText` is not under
`src/`; per spec §4.6 step 3 it applies the same continuation-merging and
joining as the question cleaner. -/
def cleanExplanationText (s : Str) : Str :=
  List.intercalate [' '] (mergeShortLinesSpec (splitLines s))

/-! ## Quality scoring and finalization -/

/-- Embeds `evaluateQuestionLength` (question-parser.js:1479). -/
def evaluateQuestionLength (questionText : Str) : ℚ :=
  if questionText.isEmpty then 0
  else
    let length := questionText.length
    if length < 10 then 1/10
    else if length < 20 then 3/10
    else if length < 50 then 7/10
    else if length < 200 then 1
    else if length < 500 then 9/10
    else 6/10

/-- Embeds `evaluateChoiceCount` (question-parser.js:1496). -/
def evaluateChoiceCount (choices : List Choice) : ℚ :=
  let count := choices.length
  if count = 0 then 1/2
  else if 2 ≤ count && count ≤ 5 then 1
  else if count = 1 then 3/10
  else 2/10

/-- Per-choice score inside `evaluateChoiceQuality`. -/
def choiceScore (c : Choice) : ℚ :=
  let s := (if 5 < c.text.length then (1:ℚ)/2 else 0) +
           (if 15 < c.text.length then (3:ℚ)/10 else 0) +
           (if c.symbol.isEmpty then 0 else (2:ℚ)/10)
  min s 1

/-- Embeds `evaluateChoiceQuality` (question-parser.js:1509). -/
def evaluateChoiceQuality (choices : List Choice) : ℚ :=
  if choices.isEmpty then 1/2
  else ((choices.map choiceScore).sum) / choices.length

/-- Characters accepted by the answer-token regex
`[①②③④⑤1-5アイウエオ]` in `evaluateAnswerPresence`. -/
def answerTokenChars : List Char :=
  ['①', '②', '③', '④', '⑤', '1', '2', '3', '4', '5', 'ア', 'イ', 'ウ', 'エ', 'オ']

/-- Embeds `evaluateAnswerPresence` (question-parser.js:1534). -/
def evaluateAnswerPresence (answer : Option Str) : ℚ :=
  match answer with
  | none => 0
  | some s =>
    if s.isEmpty then 0
    else if s = maru || s = batsu then 1
    else
      match s with
      | [c] => if answerTokenChars.contains c then 1 else 1/2
      | _ => 1/2

/-- Embeds `evaluateExplanationQuality` (question-parser.js:1546). -/
def evaluateExplanationQuality (explanation : Str) : ℚ :=
  if explanation.isEmpty then 0
  else
    let length := explanation.length
    if length < 10 then 2/10
    else if length < 30 then 1/2
    else if length < 100 then 8/10
    else if length < 300 then 1
    else 9/10

/-- Lexicographic (UTF-16 code point) strict order on strings, the order
used by JS `Array.prototype.sort()` without a comparator. -/
def lexLt : Str → Str → Bool
  | [], [] => false
  | [], _ :: _ => true
  | _ :: _, [] => false
  | c :: cs, d :: ds =>
    if c.toNat < d.toNat then true
    else if d.toNat < c.toNat then false
    else lexLt cs ds

def insertLex (n : Nat) : List Nat → List Nat
  | [] => [n]
  | m :: ms => if lexLt (natRepr m) (natRepr n) then m :: insertLex n ms else n :: m :: ms

/-- Embeds the comparator-less JS `numbers.sort()` used on choice numbers:
sorts by the lexicographic order of the decimal strings. -/
def sortLex (ns : List Nat) : List Nat := ns.foldr insertLex []

/-- Consecutive-run test used by the sequential-numbering checks. -/
def isSequentialRun : List Nat → Bool
  | [] => true
  | [_] => true
  | a :: b :: rest => b = a + 1 && isSequentialRun (b :: rest)

/-- Embeds `evaluateFormatConsistency` (question-parser.js:1562). -/
def evaluateFormatConsistency (q : Question) : ℚ :=
  let s1 : ℚ := if 1 ≤ q.questionNumber && q.questionNumber ≤ 100 then 3/10 else 0
  let s2 : ℚ := if q.patternUsed.isEmpty then 0 else 3/10
  let s3 : ℚ :=
    if 1 < q.choices.length then
      if isSequentialRun (sortLex (q.choices.map (fun c => c.number))) then 4/10 else 2/10
    else 4/10
  min (s1 + s2 + s3) 1

/-- Embeds JS `Math.round` on the exact rationals that occur here. -/
def jsRound (x : ℚ) : ℤ := ⌊x + 1/2⌋

/-- Embeds `calculateMultiDimensionalQuality` (question-parser.js:1432):
the six weighted dimensions with `CONFIG.PARSING.qualityWeights`. -/
def calculateMultiDimensionalQuality (q : Question) : QualityScore :=
  let ql := evaluateQuestionLength q.question
  let cc := evaluateChoiceCount q.choices
  let cq := evaluateChoiceQuality q.choices
  let ap := evaluateAnswerPresence q.answer
  let eq := evaluateExplanationQuality q.explanation
  let fc := evaluateFormatConsistency q
  let total := ql * (25/100) + cc * (20/100) + cq * (15/100) +
               ap * (20/100) + eq * (10/100) + fc * (10/100)
  { totalScore := min total 1,
    questionLength := ql, choiceCount := cc, choiceQuality := cq,
    answerPresence := ap, explanationQuality := eq, formatConsistency := fc,
    confidence := jsRound (total * 100) }

/-- Embeds `adjustConfidenceByQuality` (question-parser.js:1600). -/
def adjustConfidenceByQuality (baseConfidence : ℚ) (qs : QualityScore) : ℚ :=
  let qualityMultiplier := 1/2 + qs.totalScore * (1/2)
  clamp (baseConfidence * qualityMultiplier)
    (baseConfidence * (7/10)) (baseConfidence * (13/10))

/-- Embeds `finalizeQuestion` (question-parser.js:1384): guess a missing
answer (−20 confidence), generate a missing explanation, clean the texts,
adjust confidence by the quality score and clamp it to
`[0, maxThreshold]`; `now` is the wall-clock ISO string stored in
`createdAt`. -/
def finalizeQuestion (now : Str) (q : Question) : Question :=
  let q1 :=
    if isFalsyAnswer q.answer then
      { q with answer := some (guessAnswerFromQuestion q.question),
               confidence := q.confidence - 20,
               metadata := { q.metadata with answerGuessed := true } }
    else q
  let q2 :=
    if q1.explanation.isEmpty then
      { q1 with explanation := generateExplanation q1.question q1.answer q1.sectionName,
                metadata := { q1.metadata with explanationGenerated := true } }
    else q1
  let q3 := { q2 with question := cleanQuestionText q2.question,
                      explanation := cleanExplanationText q2.explanation }
  let qs := calculateMultiDimensionalQuality q3
  let q4 := { q3 with qualityScore := some qs,
                      confidence := adjustConfidenceByQuality q3.confidence qs }
  { q4 with confidence := clamp q4.confidence 0 maxThreshold, createdAt := now }

/-! ## Validation -/

/-- Embeds `isValidQuestionBasic` (question-parser.js:1187): number at
least 1, body at least 20 characters and containing a Japanese
character. -/
def isValidQuestionBasic (q : Question) : Bool :=
  1 ≤ q.questionNumber && 20 ≤ q.question.length && containsJapanese q.question

/-- Embeds `isValidQuestion` (question-parser.js:1315); the
DOM-provided confidence threshold is passed as `threshold`. -/
def isValidQuestion (threshold : ℚ) (q : Question) : Bool :=
  minQuestionLength ≤ (jsTrim q.question).length &&
  questionNumberMin ≤ q.questionNumber && q.questionNumber ≤ questionNumberMax &&
  threshold ≤ q.confidence

/-! ## Question Pattern Detector -/

/-- Embeds `estimateQuestionCount` (question-parser.js:888): distinct
integers 1..100 occurring in the text, divided by 3, at least 1. -/
def estimateQuestionCount (text : Str) : ℚ :=
  let reasonableNumbers :=
    (((digitRuns text).map digitsToNat).dedup).filter (fun n => 1 ≤ n && n ≤ 100)
  max ((reasonableNumbers.length : ℚ) / 3) 1

/-- Embeds `processAnswerAnchoredPattern` (question-parser.js:2279):
builds questions whose answer comes from the third capture group
(normalizing `○` to `〇`) and reports confidence 95 whenever at least
one question was found. -/
def processAnswerAnchoredPattern (text : Str) (cfg : PatternConfig)
    (ms : List MatchRec) : DetectResult :=
  let questions := ms.filterMap fun m =>
    match parseIntOpt m.g1 with
    | none => none
    | some n =>
      let questionText := jsTrim (m.g2.getD [])
      let answer : Option Str := m.g3.map fun a => if a = "○".toList then maru else a
      if 1 ≤ n && n ≤ questionNumberMax && 5 < questionText.length then
        some { questionNumber := n, question := questionText, answer := answer,
               explanation := [], confidence := cfg.confidence * 100, choices := [],
               metadata := { fullMatch := m.m0, position := m.idx,
                             detectedPattern := cfg.name, hasAnswer := true } }
      else none
  { questions := questions,
    confidence := if 0 < questions.length then 95 else 0,
    coverage := min ((questions.length : ℚ) / max 1 (estimateQuestionCount text)) 1 }

/-- Question built from one match by the earlier (shadowed)
`detectWithPattern` (question-parser.js:778-801); empty when the match is
rejected. -/
def buildQ1 (cfg : PatternConfig) (m : MatchRec) : List Question :=
  match m.g1 with
  | none => []
  | some g =>
    if g.isEmpty then []
    else
      match parseIntOpt (some g) with
      | none => []
      | some n =>
        if 1 ≤ n && n ≤ questionNumberMax then
          [{ questionNumber := n, question := jsTrim (m.g2.getD []), answer := none,
             explanation := [], confidence := cfg.confidence * 100, choices := [],
             metadata := { fullMatch := m.m0, position := m.idx,
                           detectedPattern := cfg.name } }]
        else []

/-- Embeds the match-consumption loop of the earlier (shadowed)
`detectWithPattern` (question-parser.js:770-810): each consumed match
increments `totalMatches`, valid matches yield questions, and the loop
breaks after processing a match once the running count exceeds 1000,
keeping the yield collected so far.  Returns the questions and the final
`totalMatches` count. -/
def detectLoop1 (cfg : PatternConfig) : List MatchRec → Nat → List Question × Nat
  | [], total => ([], total)
  | m :: rest, total =>
    let total1 := total + 1
    let here := buildQ1 cfg m
    if 1000 < total1 then (here, total1)
    else
      let r := detectLoop1 cfg rest total1
      (here ++ r.1, r.2)

/-- Question built from one match by the overriding `detectWithPattern`
(question-parser.js:1859-1878), before choice extraction and basic
validation: requires a truthy parsed number and a body longer than 10
characters; `now` is the wall-clock ISO string stored in
`metadata.extractedAt`. -/
def mkQuestion2 (cfg : PatternConfig) (now : Str) (m : MatchRec) : Option Question :=
  match parseIntOpt m.g1 with
  | none => none
  | some n =>
    if n = 0 then none
    else
      let questionText := jsTrim (m.g2.getD [])
      if 10 < questionText.length then
        some { questionNumber := n, question := questionText, choices := [],
               answer := none, explanation := [], confidence := cfg.confidence * 100,
               metadata := { pattern := cfg.name, extractedAt := now } }
      else none

/-- Per-match step of the overriding `detectWithPattern`: build the
question, attach the extracted choices (`extractChoices` operates by
regex, abstracted as `choicesOf`), keep it only if it passes
`isValidQuestionBasic`. -/
def qStep (choicesOf : Str → List Choice) (cfg : PatternConfig) (now : Str)
    (m : MatchRec) : Option Question :=
  (mkQuestion2 cfg now m).bind fun q0 =>
    let q := { q0 with choices := choicesOf q0.question }
    if isValidQuestionBasic q then some q else none

/-- Embeds the overriding (effective) `detectWithPattern`
(question-parser.js:1785-1912), the one in force in the
`QuestionParser` object literal: processes the full match stream with no
match cap, confidence is the valid/total ratio as a percentage, coverage
the rough `totalMatches*50 / text.length` estimate. -/
def detectWithPattern (choicesOf : Str → List Choice) (text : Str)
    (cfg : PatternConfig) (ms : List MatchRec) (now : Str) : DetectResult :=
  let questions := ms.filterMap (qStep choicesOf cfg now)
  let totalMatches := ms.length
  let validQuestions := questions.length
  { questions := questions,
    confidence := if 0 < totalMatches then ((validQuestions : ℚ) / totalMatches) * 100 else 0,
    coverage := if 0 < text.length then ((totalMatches : ℚ) * 50) / text.length else 0,
    totalMatches := totalMatches,
    validQuestions := validQuestions }

/-- Embeds `calculatePatternScore` (question-parser.js:1959): the weighted
sum `count*0.4 + confidence*0.3 + coverage*0.2 + patternConfidence*100*0.1`,
capped at 100. -/
def calculatePatternScore (r : DetectionEntry) : ℚ :=
  min ((r.questions.length : ℚ) * (4/10) + r.confidence * (3/10) +
       r.coverage * (2/10) + r.pattern.confidence * 100 * (1/10)) 100

/-- The strict-improvement fold of the overriding (effective)
`selectBestPattern` (question-parser.js:1925-1936): running best result
and best score, starting from no result and score 0. -/
def selectFold (detectionResults : List DetectionEntry) : Option DetectionEntry × ℚ :=
  detectionResults.foldl
    (fun acc r =>
      if acc.2 < calculatePatternScore r then (some r, calculatePatternScore r)
      else acc)
    ((none : Option DetectionEntry), (0 : ℚ))

/-- Embeds the overriding (effective) `selectBestPattern`
(question-parser.js:1919), continued: the strict-improvement fold above,
then the minimum-score threshold
`CONFIG.PARSING.confidence.minimumThreshold || 20` (the config declares no
`minimumThreshold`, so the threshold is 20). -/
def selectBestPattern (detectionResults : List DetectionEntry) : Option DetectionEntry :=
  if detectionResults.isEmpty then none
  else
    if (selectFold detectionResults).2 < 20 then none
    else (selectFold detectionResults).1

/-- The external collaborators of the detector: the JS regex engine
producing each pattern's match stream on a text, and the regex-driven
`extractChoices`. -/
structure Env where
  matcher : PatternConfig → Str → List MatchRec
  choicesOf : Str → List Choice

/-- The `detectionResults` array built by the overriding (effective)
`detectQuestionsAdaptive` (question-parser.js:1745-1766): one entry per
catalog pattern that detected at least one question. -/
def detectionResults (env : Env) (text now : Str) : List DetectionEntry :=
  questionNumberPatterns.filterMap fun cfg =>
    let r := detectWithPattern env.choicesOf text cfg (env.matcher cfg text) now
    if 0 < r.questions.length then
      some ⟨cfg, r.questions, r.confidence, r.coverage⟩
    else none

/-- Embeds the overriding (effective) `detectQuestionsAdaptive`
(question-parser.js:1741-1777): run every catalog pattern, keep the
non-empty results, return the best pattern's questions (or nothing). -/
def detectQuestionsAdaptive (env : Env) (text now : Str) : List Question :=
  match selectBestPattern (detectionResults env text now) with
  | some bestPattern => bestPattern.questions
  | none => []

/-! ## Post-processing -/

/-- Embeds the duplicate key of `removeDuplicateQuestions`
(question-parser.js:534): the template string
`questionNumber + underscore + first 50 characters of the body`. -/
def dupKey (q : Question) : Str :=
  natRepr q.questionNumber ++ '_' :: q.question.take 50

/-- The seen-set loop of `removeDuplicateQuestions`. -/
def removeDupAux (seen : List Str) : List Question → List Question
  | [] => []
  | q :: qs =>
    if dupKey q ∈ seen then removeDupAux seen qs
    else q :: removeDupAux (dupKey q :: seen) qs

/-- Embeds `removeDuplicateQuestions` (question-parser.js:528). -/
def removeDuplicateQuestions (questions : List Question) : List Question :=
  removeDupAux [] questions

/-- The duplicate criterion as worded by the spec: same question number
and same first 50 characters of the body. -/
def samePairKey (a b : Question) : Bool :=
  a.questionNumber == b.questionNumber && a.question.take 50 == b.question.take 50

/-- Deduplication as worded by the spec: keep the first question of each
`(questionNumber, first 50 chars)` class, drop every later duplicate. -/
def keepFirstByPair : List Question → List Question
  | [] => []
  | q :: qs => q :: keepFirstByPair (qs.filter (fun r => !(samePairKey q r)))
  termination_by l => l.length
  decreasing_by
    have := List.length_filter_le (fun r => !(samePairKey q r)) qs
    simp only [List.length_cons]
    omega

def insertByNum (q : Question) : List Question → List Question
  | [] => [q]
  | x :: xs =>
    if q.questionNumber ≤ x.questionNumber then q :: x :: xs
    else x :: insertByNum q xs

/-- Embeds the final `sort((a, b) => (a.questionNumber||0) -
(b.questionNumber||0))` of `postProcessQuestions` as a stable insertion
sort by question number. -/
def sortByNumber : List Question → List Question
  | [] => []
  | x :: xs => insertByNum x (sortByNumber xs)

/-- Embeds `postProcessQuestions` (question-parser.js:487): finalize each
question, keep the valid ones (the per-question try/catch never fires in
this total model), deduplicate, sort by question number.  `threshold` is
the DOM-provided confidence threshold, `now` the wall clock. -/
def postProcessQuestions (threshold : ℚ) (now : Str) (questions : List Question) :
    List Question :=
  if questions.isEmpty then []
  else
    sortByNumber (removeDuplicateQuestions (questions.filterMap fun q =>
      if isValidQuestion threshold (finalizeQuestion now q) then
        some (finalizeQuestion now q)
      else none))

/-! ## Public boundary -/

/-- The `metadata` of a `parseQuestions` result (the fields the error path
writes). -/
structure ParseMetadata where
  fileName : Str
  error : Option Str := none
  deriving DecidableEq

/-- The result object of `parseQuestions`.  `patterns` and `statistics`
are whatever the analysis steps produce; `none` models the empty object
literal of the error path. -/
structure ParseResult (P S : Type) where
  questions : List Question
  patterns : Option P
  statistics : Option S
  metadata : ParseMetadata

/-- The structured zero-result object built by the catch branch of
`parseQuestions` (question-parser.js:73-78). -/
def zeroResult (P S : Type) (fileName msg : Str) : ParseResult P S :=
  { questions := [], patterns := none, statistics := none,
    metadata := { fileName := fileName, error := some msg } }

/-- Embeds the try/catch boundary of `parseQuestions`
(question-parser.js:15-80): the pipeline body is a computation that either
yields a result object or raises an exception with a message; the catch
branch logs and returns the structured zero-result object. -/
def parseQuestions {P S : Type} (fileName : Str)
    (body : Except Str (ParseResult P S)) : ParseResult P S :=
  match body with
  | .ok r => r
  | .error msg => zeroResult P S fileName msg

/-- Overwrite the extraction timestamp of a question. -/
def setTime (t : Str) (q : Question) : Question :=
  { q with metadata := { q.metadata with extractedAt := t } }

/-- A detection-result entry with all its questions' timestamps
overwritten. -/
def retimeEntry (t : Str) (e : DetectionEntry) : DetectionEntry :=
  { e with questions := e.questions.map (setTime t) }

/-- The answer-guessing update applied by `finalizeQuestion` when the
answer is missing: assign the guessed answer, subtract 20 confidence
points, flag `metadata.answerGuessed`. -/
def fillGuess (q : Question) : Question :=
  { q with answer := some (guessAnswerFromQuestion q.question),
           confidence := q.confidence - 20,
           metadata := { q.metadata with answerGuessed := true } }

/-- Stated from the spec's words for comparison: the total count of
positive-keyword occurrences in the line. -/
def posOccurrences (line : Str) : Nat :=
  (positiveKeywords.map (fun k => countOccs (toLowerStr line) k)).sum

/-- Stated from the spec's words for comparison: the total count of
negative-keyword occurrences in the line. -/
def negOccurrences (line : Str) : Nat :=
  (negativeKeywords.map (fun k => countOccs (toLowerStr line) k)).sum

/-! ## Concrete fixtures used by witnesses and counterexamples -/

/-- A minimal placeholder question (only its presence in a detection
result matters to pattern scoring). -/
def qDummy : Question :=
  { questionNumber := 1, question := [], answer := none, explanation := [],
    confidence := 0 }

/-- A detection result with 200 questions and zero confidence and
coverage, from a pattern with declared confidence 0. -/
def entryA : DetectionEntry :=
  ⟨⟨"A".toList, 0, .number_only⟩, List.replicate 200 qDummy, 0, 0⟩

/-- A detection result with one question, confidence 100, full coverage,
from a pattern with declared confidence 1. -/
def entryB : DetectionEntry :=
  ⟨⟨"B".toList, 1, .number_only⟩, [qDummy], 100, 1⟩

/-- A line containing two positive keywords (正しい, 適切) and one
negative keyword (誤っている), each exactly once. -/
def lineC7 : Str := "正しい内容であり適切だが誤っている".toList

/-- A question whose answer is the choice marker ③ (as produced by the
`選択肢番号答え` answer pattern in the fallback path). -/
def qC3 : Question :=
  { questionNumber := 7,
    question := "宅建業の免許に関する次の記述は正しいか判断せよ。".toList,
    answer := some "③".toList,
    explanation := "解説あり十分な長さの説明文です。".toList,
    confidence := 70 }

/-- A question with no answer, used to exercise the guessing branch of
`finalizeQuestion`. -/
def qNullAns : Question :=
  { questionNumber := 9,
    question := "宅地建物取引業の免許は知事に申請できるものとする。".toList,
    answer := none,
    explanation := "解説あり十分な長さの説明文です。".toList,
    confidence := 80 }

/-- A well-formed question used to exercise `postProcessQuestions`. -/
def qW : Question :=
  { questionNumber := 3,
    question := "宅地建物取引業を営むには国土交通大臣または知事の免許が必要である。".toList,
    answer := some maru,
    explanation := "宅建業法第3条により免許が必要とされています。".toList,
    confidence := 80 }

/-- The text of the five-digit-anchored scenario: a 5-digit number
followed by a Japanese statement. -/
def textT : Str :=
  "10001本問は正しい記述でありこれは宅建業法のテスト問題である。".toList

/-- The question body captured from `textT`. -/
def bodyT : Str :=
  "本問は正しい記述でありこれは宅建業法のテスト問題である。".toList

/-- The single match the JS engine yields on `textT` for the
`5桁問題番号` pattern `^(\d\x7b4,6\x7d)(.+?)(?=\d\x7b4,6\x7d|$)/gs` and for the
`宅建年度番号形式` pattern (both anchor at position 0, capture the five
digits and the whole remaining body; no further match is possible since
`^` only matches at the string start without the `m` flag). -/
def mFive : MatchRec :=
  { m0 := textT, g1 := some "10001".toList, g2 := some bodyT, g3 := none, idx := 0 }

/-- The match streams of the twelve catalog regexes on `textT`: only the
`5桁問題番号` and `宅建年度番号形式` patterns match (`textT` starts with
five digits and no separator, ruling the other ten out), each exactly
once. -/
def matcherT : PatternConfig → Str → List MatchRec := fun cfg text =>
  if text = textT ∧ (cfg.ptype = PType.five_digit_number ∨
      cfg.ptype = PType.takken_year_number)
  then [mFive] else []

/-- Environment for the `textT` scenario: the match streams above, and
`extractChoices` yields nothing on `bodyT` (it contains no choice
markers). -/
def envT : Env := ⟨matcherT, fun _ => []⟩

def tA : Str := "2024-01-01T00:00:00.000Z".toList
def tB : Str := "2024-01-02T00:00:00.000Z".toList

/-- The catalog entry for the five-digit pattern. -/
def fiveCfg : PatternConfig := ⟨"5桁問題番号".toList, 90/100, .five_digit_number⟩

/-- A hypothetical pattern carrying the `answer_anchored` type tag (the
shipped catalog contains none). -/
def anchorCfg : PatternConfig := ⟨"回答アンカー形式".toList, 90/100, .answer_anchored⟩

/-- An anchored match carrying an inline `×` answer token in its third
capture group. -/
def mAnchorX : MatchRec :=
  { m0 := textT, g1 := some "10001".toList, g2 := some bodyT,
    g3 := some "×".toList, idx := 0 }

/-- An anchored match carrying an inline `○` answer token (the variant
the anchor processing normalizes to `〇`). -/
def mAnchorMaru : MatchRec :=
  { m0 := textT, g1 := some "10001".toList, g2 := some bodyT,
    g3 := some "○".toList, idx := 0 }

/-- A stream of 1001 (vacuous) matches, exceeding the 1000-match cap. -/
def ms1001 : List MatchRec := List.replicate 1001 {}

/-- A throwaway pattern for the match-cap counterexample. -/
def plainCfg : PatternConfig := ⟨"P".toList, 1/2, .number_only⟩

/-- The catalog entry for the takken-year pattern. -/
def yearCfg : PatternConfig := ⟨"宅建年度番号形式".toList, 95/100, .takken_year_number⟩

/-- The detection result of the effective `detectWithPattern` on `textT`
for the five-digit pattern. -/
def dwpFive (t : Str) : DetectResult :=
  detectWithPattern (fun _ => []) textT fiveCfg [mFive] t

/-- The detection result of the effective `detectWithPattern` on `textT`
for the takken-year pattern. -/
def dwpYear (t : Str) : DetectResult :=
  detectWithPattern (fun _ => []) textT yearCfg [mFive] t

/-- The question built from `mFive` under the five-digit pattern with
extraction time `t`. -/
def qOutFive (t : Str) : Question :=
  { questionNumber := 10001, question := bodyT, choices := [], answer := none,
    explanation := [], confidence := fiveCfg.confidence * 100,
    metadata := { pattern := fiveCfg.name, extractedAt := t } }

/-- The question built from `mFive` under the takken-year pattern with
extraction time `t`. -/
def qOutYear (t : Str) : Question :=
  { questionNumber := 10001, question := bodyT, choices := [], answer := none,
    explanation := [], confidence := yearCfg.confidence * 100,
    metadata := { pattern := yearCfg.name, extractedAt := t } }

/-- The question the overriding `detectWithPattern` builds from `mFive`
under the five-digit pattern. -/
def qOut5 : Question :=
  { questionNumber := 10001, question := bodyT, choices := [], answer := none,
    explanation := [], confidence := fiveCfg.confidence * 100,
    metadata := { pattern := fiveCfg.name, extractedAt := tA } }

/-! # Theorems -/

/-! ## Shared helper lemmas -/

theorem clamp_nonneg_le (v : ℚ) :
    0 ≤ clamp v 0 maxThreshold ∧ clamp v 0 maxThreshold ≤ 95 :=
  ⟨le_min (le_max_right v 0) (by norm_num [maxThreshold]),
   min_le_right _ _⟩

theorem ite_maru_batsu (c : Prop) [Decidable c] :
    (if c then maru else batsu) = maru ∨ (if c then maru else batsu) = batsu := by
  split
  · exact Or.inl rfl
  · exact Or.inr rfl

theorem guessAnswer_cases (t : Str) :
    guessAnswerFromQuestion t = maru ∨ guessAnswerFromQuestion t = batsu := by
  unfold guessAnswerFromQuestion
  split
  · exact Or.inr rfl
  · exact ite_maru_batsu _

theorem perm_insertByNum (x : Question) : ∀ l, List.Perm (insertByNum x l) (x :: l)
  | [] => List.Perm.refl _
  | y :: ys => by
    unfold insertByNum
    split
    · exact List.Perm.refl _
    · exact ((perm_insertByNum x ys).cons y).trans (List.Perm.swap x y ys)

theorem perm_sortByNumber : ∀ l, List.Perm (sortByNumber l) l
  | [] => List.Perm.refl _
  | x :: xs => (perm_insertByNum x _).trans ((perm_sortByNumber xs).cons x)

theorem removeDupAux_subset : ∀ (l : List Question) (seen : List Str),
    removeDupAux seen l ⊆ l
  | [], _ => by simp [removeDupAux]
  | q :: qs, seen => by
    unfold removeDupAux
    split
    · exact (removeDupAux_subset qs seen).trans (List.subset_cons_self q qs)
    · exact List.cons_subset_cons q (removeDupAux_subset qs _)

/-- Every element of `postProcessQuestions` is `finalizeQuestion now a`
for some input question `a`. -/
theorem mem_postProcess_im {threshold : ℚ} {now : Str} {qs : List Question}
    {q : Question} (hq : q ∈ postProcessQuestions threshold now qs) :
    ∃ a ∈ qs, q = finalizeQuestion now a := by
  unfold postProcessQuestions at hq
  split at hq
  · simp at hq
  · rw [(perm_sortByNumber _).mem_iff] at hq
    unfold removeDuplicateQuestions at hq
    have hq2 := removeDupAux_subset _ _ hq
    obtain ⟨a, ha, hfa⟩ := List.mem_filterMap.mp hq2
    refine ⟨a, ha, ?_⟩
    by_cases hv : isValidQuestion threshold (finalizeQuestion now a) = true
    · rw [if_pos hv] at hfa
      exact (Option.some_injective _ hfa).symm
    · rw [if_neg hv] at hfa
      cases hfa

/-- Projection of `finalizeQuestion` on the answer field. -/
theorem finalize_answer_eq (now : Str) (q : Question) :
    (finalizeQuestion now q).answer =
      (if isFalsyAnswer q.answer then some (guessAnswerFromQuestion q.question)
       else q.answer) := by
  unfold finalizeQuestion
  split <;> simp [apply_ite Question.answer, fillGuess]

/-- Projection of `finalizeQuestion` on the answerGuessed flag. -/
theorem finalize_answerGuessed_eq (now : Str) (q : Question) :
    (finalizeQuestion now q).metadata.answerGuessed =
      (if isFalsyAnswer q.answer then true else q.metadata.answerGuessed) := by
  unfold finalizeQuestion
  split <;>
    simp [apply_ite (fun x : Question => x.metadata.answerGuessed)]

/-! ## C1 -/

/-- C1: `parseQuestions` never propagates an exception across its public
boundary (the embedded wrapper is a total function of the pipeline
outcome); when the pipeline raises an exception it returns the structured
zero-result object with `questions = []`, empty `patterns` and
`statistics`, and `metadata.error` set to the exception\'s message, and
when the pipeline succeeds it returns its result unchanged. -/
theorem parseQuestions_public_boundary (P S : Type) (fileName msg : Str)
    (r : ParseResult P S) :
    parseQuestions fileName (Except.error msg) = zeroResult P S fileName msg ∧
    (parseQuestions fileName (Except.error msg) : ParseResult P S).questions = [] ∧
    (parseQuestions fileName (Except.error msg) : ParseResult P S).patterns = none ∧
    (parseQuestions fileName (Except.error msg) : ParseResult P S).statistics = none ∧
    (parseQuestions fileName (Except.error msg) : ParseResult P S).metadata.error
      = some msg ∧
    parseQuestions fileName (Except.ok r) = r :=
  ⟨rfl, rfl, rfl, rfl, rfl, rfl⟩

/-! ## C2 -/

/-- C2: every question finalized by `finalizeQuestion` — hence every
question in the final `postProcessQuestions` output — has its confidence
clamped to `[0, 95]` (`CONFIG.PARSING.confidence.maxThreshold`). -/
theorem finalizeQuestion_confidence_bounds :
    (∀ (now : Str) (q : Question),
      0 ≤ (finalizeQuestion now q).confidence ∧
      (finalizeQuestion now q).confidence ≤ 95) ∧
    (∀ (threshold : ℚ) (now : Str) (qs : List Question) (q : Question),
      q ∈ postProcessQuestions threshold now qs →
      0 ≤ q.confidence ∧ q.confidence ≤ 95) := by
  have h1 : ∀ (now : Str) (q : Question),
      0 ≤ (finalizeQuestion now q).confidence ∧
      (finalizeQuestion now q).confidence ≤ 95 := by
    intro now q
    exact clamp_nonneg_le _
  refine ⟨h1, ?_⟩
  intro threshold now qs q hq
  obtain ⟨a, _, rfl⟩ := mem_postProcess_im hq
  exact h1 now a

/-- Evaluation of `postProcessQuestions` on the single question `qW` at
threshold 0. -/
theorem postProcess_qW_eval :
    postProcessQuestions 0 [] [qW] = [finalizeQuestion [] qW] := by
  have hval : isValidQuestion 0 (finalizeQuestion [] qW) = true := by
    unfold isValidQuestion
    have h4 : decide ((0:ℚ) ≤ (finalizeQuestion [] qW).confidence) = true :=
      decide_eq_true (clamp_nonneg_le _).1
    rw [h4]
    decide
  unfold postProcessQuestions
  rw [if_neg (by decide)]
  rw [List.filterMap_cons, if_pos hval]
  simp [removeDuplicateQuestions, removeDupAux, sortByNumber, insertByNum]

/-- Witness for C2: the concrete question `qW` survives post-processing
and its confidence lies in `[0, 95]`. -/
theorem finalizeQuestion_confidence_bounds_witness :
    0 ≤ (finalizeQuestion [] qW).confidence ∧
    (finalizeQuestion [] qW).confidence ≤ 95 :=
  finalizeQuestion_confidence_bounds.2 0 [] [qW] (finalizeQuestion [] qW)
    (by rw [postProcess_qW_eval]; exact List.mem_singleton.mpr rfl)

/-! ## C3 -/

/-- Counterexample for C3: a question entering `finalizeQuestion` with the
choice-marker answer `③` (as the fallback answer patterns can produce)
leaves with that same answer, which is neither `〇` nor `×`. -/
theorem finalizeQuestion_choice_marker_counterexample :
    (finalizeQuestion [] qC3).answer = some "③".toList ∧
    ¬((finalizeQuestion [] qC3).answer = some maru ∨
      (finalizeQuestion [] qC3).answer = some batsu) := by
  constructor
  · rw [finalize_answer_eq]
    decide
  · rw [finalize_answer_eq]
    decide

/-- C3 (amended): after `finalizeQuestion` the answer is never `null`;
when the entry answer is falsy (null or empty) the keyword guesser
assigns `〇` or `×` (tie defaults to `×` inside
`guessAnswerFromQuestion`), `metadata.answerGuessed` is set, and the
whole step is exactly the `fillGuess` update (answer assigned, 20
subtracted from the confidence before quality adjustment); a non-empty
entry answer — even one outside `\x7b〇, ×\x7d` such as `③` — passes
through unchanged. -/
theorem finalizeQuestion_answer_characterization (now : Str) (q : Question) :
    (finalizeQuestion now q).answer ≠ none ∧
    (isFalsyAnswer q.answer = true →
      (finalizeQuestion now q).answer = some (guessAnswerFromQuestion q.question) ∧
      (guessAnswerFromQuestion q.question = maru ∨
        guessAnswerFromQuestion q.question = batsu) ∧
      (finalizeQuestion now q).metadata.answerGuessed = true ∧
      finalizeQuestion now q = finalizeQuestion now (fillGuess q)) ∧
    (isFalsyAnswer q.answer = false → (finalizeQuestion now q).answer = q.answer) := by
  have hguess := guessAnswer_cases q.question
  have hne : isFalsyAnswer (some (guessAnswerFromQuestion q.question)) = false := by
    rcases hguess with h | h <;> rw [h] <;> decide
  by_cases hf : isFalsyAnswer q.answer = true
  · have hstep : finalizeQuestion now q = finalizeQuestion now (fillGuess q) := by
      simp only [finalizeQuestion, fillGuess, hf, hne, if_true, Bool.false_eq_true,
        if_false]
    refine ⟨?_, fun _ => ⟨?_, hguess, ?_, hstep⟩, fun hc => absurd hf (by rw [hc]; decide)⟩
    · rw [finalize_answer_eq, if_pos hf]
      exact Option.some_ne_none _
    · rw [finalize_answer_eq, if_pos hf]
    · rw [finalize_answerGuessed_eq, if_pos hf]
  · rw [Bool.not_eq_true] at hf
    have hans : (finalizeQuestion now q).answer = q.answer := by
      rw [finalize_answer_eq, if_neg (by rw [hf]; decide)]
    refine ⟨?_, fun hc => absurd hf (by rw [hc]; decide), fun _ => hans⟩
    rw [hans]
    intro hnone
    rw [hnone] at hf
    exact absurd hf (by decide)

/-- Witness for C3 (amended): the guessing branch on the concrete
answerless question `qNullAns`. -/
theorem finalizeQuestion_answer_characterization_witness :
    (finalizeQuestion tA qNullAns).answer
      = some (guessAnswerFromQuestion qNullAns.question) ∧
    (guessAnswerFromQuestion qNullAns.question = maru ∨
      guessAnswerFromQuestion qNullAns.question = batsu) ∧
    (finalizeQuestion tA qNullAns).metadata.answerGuessed = true ∧
    finalizeQuestion tA qNullAns = finalizeQuestion tA (fillGuess qNullAns) :=
  (finalizeQuestion_answer_characterization tA qNullAns).2.1 (by decide)

/-! ## C7 -/

/-- Counterexample for C7: on `lineC7` the positive-keyword occurrence
count (2) exceeds the negative one (1) by a margin of only 1, yet the
keyword guesser infers `〇` with confidence 0.7. -/
theorem detectAnswerFromKeywords_margin_counterexample :
    detectAnswerFromKeywords lineC7
      = some ⟨maru, lineC7, "keyword_inference".toList, 7/10⟩ ∧
    posOccurrences lineC7 = 2 ∧ negOccurrences lineC7 = 1 ∧
    ¬(negOccurrences lineC7 + 2 ≤ posOccurrences lineC7) :=
  ⟨rfl, by decide, by decide, by decide⟩

/-- C7 (amended): the keyword guesser counts how many distinct configured
keywords are present (not total occurrences) and infers `〇` with
confidence 0.7 exactly when the positive count is strictly larger than
the negative count and at least 2 (symmetrically `×`); otherwise it
returns no answer. -/
theorem detectAnswerFromKeywords_characterization (line : Str) :
    (negPresent line < posPresent line ∧ 2 ≤ posPresent line →
      detectAnswerFromKeywords line
        = some ⟨maru, line, "keyword_inference".toList, 7/10⟩) ∧
    (posPresent line < negPresent line ∧ 2 ≤ negPresent line →
      detectAnswerFromKeywords line
        = some ⟨batsu, line, "keyword_inference".toList, 7/10⟩) ∧
    (¬(negPresent line < posPresent line ∧ 2 ≤ posPresent line) →
      ¬(posPresent line < negPresent line ∧ 2 ≤ negPresent line) →
      detectAnswerFromKeywords line = none) := by
  unfold detectAnswerFromKeywords
  refine ⟨fun h => ?_, fun h => ?_, fun h1 h2 => ?_⟩
  · rw [if_pos (by simp only [Bool.and_eq_true, decide_eq_true_eq]; exact ⟨h.1, h.2⟩)]
  · rw [if_neg (by
        simp only [Bool.and_eq_true, decide_eq_true_eq]
        rintro ⟨hc, -⟩
        exact Nat.lt_asymm h.1 hc),
      if_pos (by simp only [Bool.and_eq_true, decide_eq_true_eq]; exact ⟨h.1, h.2⟩)]
  · rw [if_neg (by simp only [Bool.and_eq_true, decide_eq_true_eq]; exact h1),
      if_neg (by simp only [Bool.and_eq_true, decide_eq_true_eq]; exact h2)]

/-- Witness for C7 (amended): the positive branch fires on `lineC7`. -/
theorem detectAnswerFromKeywords_characterization_witness :
    detectAnswerFromKeywords lineC7
      = some ⟨maru, lineC7, "keyword_inference".toList, 7/10⟩ :=
  (detectAnswerFromKeywords_characterization lineC7).1 (by decide)


/-! ## C4 -/

/-- Bounds and realization of the strict-improvement fold inside
`selectBestPattern`. -/
theorem selectFoldAux (rs : List DetectionEntry) :
    ∀ acc : Option DetectionEntry × ℚ,
      acc.2 ≤ (rs.foldl
        (fun acc r =>
          if acc.2 < calculatePatternScore r then (some r, calculatePatternScore r)
          else acc) acc).2 ∧
      (∀ r' ∈ rs, calculatePatternScore r' ≤ (rs.foldl
        (fun acc r =>
          if acc.2 < calculatePatternScore r then (some r, calculatePatternScore r)
          else acc) acc).2) ∧
      ((rs.foldl
        (fun acc r =>
          if acc.2 < calculatePatternScore r then (some r, calculatePatternScore r)
          else acc) acc) = acc ∨
        ∃ r' ∈ rs, (rs.foldl
        (fun acc r =>
          if acc.2 < calculatePatternScore r then (some r, calculatePatternScore r)
          else acc) acc).1 = some r' ∧
          (rs.foldl
        (fun acc r =>
          if acc.2 < calculatePatternScore r then (some r, calculatePatternScore r)
          else acc) acc).2 = calculatePatternScore r') := by
  induction rs with
  | nil =>
    intro acc
    exact ⟨le_refl _, by simp, Or.inl rfl⟩
  | cons r rs ih =>
    intro acc
    simp only [List.foldl_cons]
    by_cases hlt : acc.2 < calculatePatternScore r
    · rw [if_pos hlt]
      obtain ⟨ih1, ih2, ih3⟩ := ih (some r, calculatePatternScore r)
      refine ⟨le_trans (le_of_lt hlt) ih1, ?_, ?_⟩
      · intro r' hr'
        rcases List.mem_cons.mp hr' with hr | hr
        · subst hr
          exact ih1
        · exact ih2 r' hr
      · rcases ih3 with h | ⟨r', hr', h1, h2⟩
        · exact Or.inr ⟨r, List.mem_cons_self r rs, by rw [h], by rw [h]⟩
        · exact Or.inr ⟨r', List.mem_cons_of_mem r hr', h1, h2⟩
    · rw [if_neg hlt]
      obtain ⟨ih1, ih2, ih3⟩ := ih acc
      refine ⟨ih1, ?_, ?_⟩
      · intro r' hr'
        rcases List.mem_cons.mp hr' with hr | hr
        · subst hr
          exact le_trans (le_of_not_lt hlt) ih1
        · exact ih2 r' hr
      · rcases ih3 with h | ⟨r', hr', h1, h2⟩
        · exact Or.inl h
        · exact Or.inr ⟨r', List.mem_cons_of_mem r hr', h1, h2⟩

/-- Counterexample for C4: the effective `selectBestPattern` selects
`entryA` (weighted score 80) over `entryB`, although `entryA` has a
strictly smaller `confidence × coverage × ln(matchedCount + 1)` score
(0 versus `100·ln 2`). -/
theorem selectBestPattern_ln_counterexample :
    selectBestPattern [entryA, entryB] = some entryA ∧
    (entryA.confidence : ℝ) * (entryA.coverage : ℝ) *
        Real.log ((entryA.questions.length : ℝ) + 1) <
      (entryB.confidence : ℝ) * (entryB.coverage : ℝ) *
        Real.log ((entryB.questions.length : ℝ) + 1) := by
  have hsA : calculatePatternScore entryA = 80 := by
    norm_num [calculatePatternScore, entryA, qDummy, min_def, List.length_replicate]
  have hsB : calculatePatternScore entryB = 203/5 := by
    norm_num [calculatePatternScore, entryB, qDummy, min_def]
  constructor
  · unfold selectBestPattern selectFold
    norm_num [List.foldl_cons, List.foldl_nil, hsA, hsB]
  · have hA : ((entryA.confidence : ℚ) : ℝ) = 0 := by norm_num [entryA]
    have hB : ((entryB.confidence : ℚ) : ℝ) = 100 := by norm_num [entryB]
    have hBcov : ((entryB.coverage : ℚ) : ℝ) = 1 := by norm_num [entryB]
    have hBlen : entryB.questions.length = 1 := by simp [entryB]
    rw [hA, hB, hBcov, hBlen, zero_mul, zero_mul]
    have h2 : (0:ℝ) < Real.log 2 := Real.log_pos (by norm_num)
    have h3 : ((1:Nat) : ℝ) + 1 = 2 := by norm_num
    rw [h3]
    nlinarith [h2]

/-- C4 (amended): the effective `selectBestPattern` selects by the
weighted score `calculatePatternScore`
(`count·0.4 + confidence·0.3 + coverage·0.2 + patternConfidence·100·0.1`,
capped at 100) with minimum threshold 20: whenever it returns a result,
that result is in the candidate list, its score is at least 20, and no
candidate has a strictly larger score.  The
`confidence × coverage × ln(count+1)` formula appears only in the earlier
shadowed `selectBestPattern`, which the later definition overrides. -/
theorem selectBestPattern_weighted_max (rs : List DetectionEntry)
    (r : DetectionEntry) (h : selectBestPattern rs = some r) :
    r ∈ rs ∧ 20 ≤ calculatePatternScore r ∧
    ∀ r' ∈ rs, calculatePatternScore r' ≤ calculatePatternScore r := by
  unfold selectBestPattern at h
  by_cases he : rs.isEmpty = true
  · rw [if_pos he] at h
    cases h
  · rw [if_neg he] at h
    by_cases hge : (selectFold rs).2 < 20
    · rw [if_pos hge] at h
      cases h
    · rw [if_neg hge] at h
      obtain ⟨h1, h2, h3⟩ := selectFoldAux rs ((none : Option DetectionEntry), (0:ℚ))
      rcases h3 with heq | ⟨r', hr', hfst, hsnd⟩
      · rw [show selectFold rs
            = rs.foldl (fun acc r =>
                if acc.2 < calculatePatternScore r
                then (some r, calculatePatternScore r) else acc)
              ((none : Option DetectionEntry), (0:ℚ)) from rfl, heq] at h
        cases h
      · rw [show selectFold rs
            = rs.foldl (fun acc r =>
                if acc.2 < calculatePatternScore r
                then (some r, calculatePatternScore r) else acc)
              ((none : Option DetectionEntry), (0:ℚ)) from rfl] at h hge
        rw [hfst] at h
        cases h
        rw [hsnd] at hge
        refine ⟨hr', le_of_not_lt hge, ?_⟩
        intro r2 hr2
        have := h2 r2 hr2
        rw [hsnd] at this
        exact this

/-- Witness for C4 (amended): applied to the singleton candidate list
`[entryB]`. -/
theorem selectBestPattern_weighted_max_witness :
    entryB ∈ [entryB] ∧ 20 ≤ calculatePatternScore entryB ∧
    ∀ r' ∈ [entryB], calculatePatternScore r' ≤ calculatePatternScore entryB :=
  selectBestPattern_weighted_max [entryB] entryB
    (by
      have hsB : calculatePatternScore entryB = 203/5 := by
        norm_num [calculatePatternScore, entryB, qDummy, min_def]
      unfold selectBestPattern selectFold
      norm_num [List.foldl_cons, List.foldl_nil, hsB])

/-! ## C6 -/

/-- The shadowed detection loop entered with running count `k ≤ 1000`
finishes with count `min (k + ms.length) 1001`. -/
theorem detectLoop1_count (cfg : PatternConfig) :
    ∀ (ms : List MatchRec) (k : Nat), k ≤ 1000 →
      (detectLoop1 cfg ms k).2 = min (k + ms.length) 1001
  | [], k, hk => by
    simp only [detectLoop1, List.length_nil, Nat.add_zero]
    omega
  | m :: rest, k, hk => by
    unfold detectLoop1
    by_cases h : 1000 < k + 1
    · rw [if_pos h]
      simp only [List.length_cons]
      omega
    · rw [if_neg h]
      simp only [List.length_cons]
      rw [detectLoop1_count cfg rest (k + 1) (by omega)]
      omega

/-- The questions yielded by the shadowed detection loop come from the
first `1001 - k` matches only: the partial yield is kept, the rest of the
stream never consumed. -/
theorem detectLoop1_partial (cfg : PatternConfig) :
    ∀ (ms : List MatchRec) (k : Nat), k ≤ 1000 →
      (detectLoop1 cfg ms k).1 = (detectLoop1 cfg (ms.take (1001 - k)) k).1
  | [], k, hk => by simp [detectLoop1]
  | m :: rest, k, hk => by
    have htake : (m :: rest).take (1001 - k) = m :: rest.take (1000 - k) := by
      have h : 1001 - k = (1000 - k) + 1 := by omega
      rw [h, List.take_succ_cons]
    rw [htake]
    unfold detectLoop1
    by_cases h : 1000 < k + 1
    · rw [if_pos h, if_pos h]
    · rw [if_neg h, if_neg h]
      have h1 : (detectLoop1 cfg rest (k + 1)).1
          = (detectLoop1 cfg (rest.take (1001 - (k + 1))) (k + 1)).1 :=
        detectLoop1_partial cfg rest (k + 1) (by omega)
      have h2 : 1001 - (k + 1) = 1000 - k := by omega
      rw [h2] at h1
      simp only [h1]

/-- Counterexample for C6: on a stream of 1001 matches the effective
(overriding) `detectWithPattern` consumes all 1001 matches — it has no
cap at all — and even the earlier shadowed loop's consumed count reaches
1001, exceeding the claimed bound of 1000. -/
theorem detect_match_cap_counterexample :
    (detectWithPattern (fun _ => []) [] plainCfg ms1001 []).totalMatches = 1001 ∧
    (detectLoop1 plainCfg ms1001 0).2 = 1001 ∧ 1000 < 1001 := by
  have hlen : ms1001.length = 1001 := by
    rw [show ms1001 = List.replicate 1001 ({} : MatchRec) from rfl,
      List.length_replicate]
  refine ⟨?_, ?_, by norm_num⟩
  · show ms1001.length = 1001
    exact hlen
  · rw [detectLoop1_count plainCfg ms1001 0 (by norm_num), hlen]
    omega

/-- C6 (amended): the earlier (shadowed) `detectWithPattern` loop breaks
only after processing the match that pushes the running count beyond
1000, so it consumes `min(matchCount, 1001)` matches and keeps exactly
the yield of the first 1001 matches; the overriding `detectWithPattern`
actually in force consumes the entire match stream with no cap. -/
theorem detect_match_cap_amended :
    (∀ (cfg : PatternConfig) (ms : List MatchRec),
      (detectLoop1 cfg ms 0).2 = min ms.length 1001) ∧
    (∀ (cfg : PatternConfig) (ms : List MatchRec),
      (detectLoop1 cfg ms 0).1 = (detectLoop1 cfg (ms.take 1001) 0).1) ∧
    (∀ (choicesOf : Str → List Choice) (text : Str) (cfg : PatternConfig)
        (ms : List MatchRec) (now : Str),
      (detectWithPattern choicesOf text cfg ms now).totalMatches = ms.length) := by
  refine ⟨fun cfg ms => ?_, fun cfg ms => ?_, fun _ _ _ _ _ => rfl⟩
  · rw [detectLoop1_count cfg ms 0 (by norm_num)]
    omega
  · exact detectLoop1_partial cfg ms 0 (by norm_num)

/-! ## Membership inversions shared by C5 and C10 -/

/-- Inversion for the questions of `processAnswerAnchoredPattern`: each
comes from a match of the stream, with its answer taken from the third
capture group, `○` normalized to `〇`. -/
theorem mem_processAnchored {text : Str} {cfg : PatternConfig}
    {ms : List MatchRec} {q : Question}
    (hq : q ∈ (processAnswerAnchoredPattern text cfg ms).questions) :
    ∃ m ∈ ms, q.answer = m.g3.map (fun a => if a = "○".toList then maru else a) := by
  obtain ⟨m, hm, he⟩ := List.mem_filterMap.mp hq
  refine ⟨m, hm, ?_⟩
  rcases hp : parseIntOpt m.g1 with _ | n
  · rw [hp] at he
    cases he
  · rw [hp] at he
    dsimp only at he
    split at he
    · cases he
      rfl
    · cases he

/-- Inversion for the questions of the overriding `detectWithPattern`:
each has a null answer, a body longer than 10 characters that is at least
20 characters and contains a Japanese character, and a question number of
at least 1; matches failing these bars contribute nothing. -/
theorem mem_detectWithPattern {choicesOf : Str → List Choice} {text : Str}
    {cfg : PatternConfig} {ms : List MatchRec} {now : Str} {q : Question}
    (hq : q ∈ (detectWithPattern choicesOf text cfg ms now).questions) :
    q.answer = none ∧ 10 < q.question.length ∧ 20 ≤ q.question.length ∧
    containsJapanese q.question = true ∧ 1 ≤ q.questionNumber := by
  obtain ⟨m, hm, he⟩ := List.mem_filterMap.mp hq
  unfold qStep mkQuestion2 at he
  rcases hp : parseIntOpt m.g1 with _ | n
  · rw [hp] at he
    cases he
  · rw [hp] at he
    dsimp only at he
    by_cases h0 : n = 0
    · rw [if_pos h0] at he
      cases he
    · rw [if_neg h0] at he
      by_cases hlen : 10 < (jsTrim (m.g2.getD [])).length
      · rw [if_pos hlen] at he
        dsimp only [Option.bind] at he
        split at he
        · rename_i hv
          cases he
          have hv' := hv
          unfold isValidQuestionBasic at hv'
          simp only [Bool.and_eq_true, decide_eq_true_eq] at hv'
          exact ⟨rfl, hlen, hv'.1.2, hv'.2, hv'.1.1⟩
        · cases he
      · rw [if_neg hlen] at he
        cases he

/-! ## C5 -/

/-- Counterexample for C5: the effective (overriding) `detectWithPattern`
— the one `detectQuestionsAdaptive` dispatches to — applies the generic
valid/total scoring even to a pattern whose type is `answer_anchored`,
reporting confidence 100 (not 95) on a fully-valid single-match stream,
and leaves the produced question's answer null instead of taking it from
the anchor capture. -/
theorem answerAnchored_counterexample :
    (detectWithPattern (fun _ => []) textT anchorCfg [mAnchorX] tA).confidence
      = 100 ∧
    ¬((detectWithPattern (fun _ => []) textT anchorCfg [mAnchorX] tA).confidence
      = 95) ∧
    ((detectWithPattern (fun _ => []) textT anchorCfg [mAnchorX] tA).questions.map
      (fun q => q.answer)) = [none] := by
  have hc : (detectWithPattern (fun _ => []) textT anchorCfg [mAnchorX] tA).confidence
      = ((1:ℚ) / ((1:Nat) : ℚ)) * 100 := by
    show (if 0 < ([mAnchorX] : List MatchRec).length then
        ((((detectWithPattern (fun _ => []) textT anchorCfg [mAnchorX] tA).validQuestions : ℚ))
          / ((([mAnchorX] : List MatchRec).length : Nat) : ℚ)) * 100 else 0)
      = ((1:ℚ) / ((1:Nat) : ℚ)) * 100
    norm_num
    rfl
  refine ⟨?_, ?_, rfl⟩
  · rw [hc]; norm_num
  · rw [hc]; norm_num

/-- C5 (amended): the anchored special handling lives only in
`processAnswerAnchoredPattern`, reachable solely through the earlier
(shadowed) `detectWithPattern`: there, the detection confidence is 95
whenever at least one question is found, and each produced question's
answer is populated from the inline anchor capture with `○` normalized to
`〇`.  The overriding `detectWithPattern` actually dispatched by
`detectQuestionsAdaptive` ignores the `answer_anchored` type entirely and
leaves every answer null. -/
theorem answerAnchored_amended :
    (∀ (text : Str) (cfg : PatternConfig) (ms : List MatchRec),
      0 < (processAnswerAnchoredPattern text cfg ms).questions.length →
      (processAnswerAnchoredPattern text cfg ms).confidence = 95) ∧
    (∀ (text : Str) (cfg : PatternConfig) (ms : List MatchRec) (q : Question),
      q ∈ (processAnswerAnchoredPattern text cfg ms).questions →
      ∃ m ∈ ms, q.answer = m.g3.map (fun a => if a = "○".toList then maru else a)) ∧
    (∀ (choicesOf : Str → List Choice) (text : Str) (cfg : PatternConfig)
        (ms : List MatchRec) (now : Str) (q : Question),
      cfg.ptype = PType.answer_anchored →
      q ∈ (detectWithPattern choicesOf text cfg ms now).questions →
      q.answer = none) := by
  refine ⟨fun text cfg ms h => ?_, fun text cfg ms q hq => mem_processAnchored hq,
    fun choicesOf text cfg ms now q _ hq => (mem_detectWithPattern hq).1⟩
  show (if 0 < (processAnswerAnchoredPattern text cfg ms).questions.length
      then (95:ℚ) else 0) = 95
  rw [if_pos h]

/-- Witness for C5 (amended): the anchored processing of the concrete
`○`-anchored match reports confidence 95, while the effective detector
leaves the same match's answer null. -/
theorem answerAnchored_amended_witness :
    (processAnswerAnchoredPattern textT anchorCfg [mAnchorMaru]).confidence = 95 ∧
    ((detectWithPattern (fun _ => []) textT anchorCfg [mAnchorMaru] tA).questions.map
      (fun q => q.answer)) = [none] :=
  ⟨answerAnchored_amended.1 textT anchorCfg [mAnchorMaru] (by decide), rfl⟩

/-! ## C10 -/

/-- C10: every question emitted by the effective primary detector (the
overriding `detectWithPattern` used by `detectQuestionsAdaptive`) has a
body longer than 10 characters, at least 20 characters long after the
basic validation, containing at least one Japanese character, with a
question number of at least 1; matches whose captured body fails these
checks are silently dropped from the result. -/
theorem detectWithPattern_question_invariants (choicesOf : Str → List Choice)
    (text : Str) (cfg : PatternConfig) (ms : List MatchRec) (now : Str)
    (q : Question) (hq : q ∈ (detectWithPattern choicesOf text cfg ms now).questions) :
    10 < q.question.length ∧ 20 ≤ q.question.length ∧
    containsJapanese q.question = true ∧ 1 ≤ q.questionNumber := by
  obtain ⟨_, h10, h20, hjp, hn⟩ := mem_detectWithPattern hq
  exact ⟨h10, h20, hjp, hn⟩

/-- Witness for C10: the question produced from the concrete five-digit
match satisfies the invariants. -/
theorem detectWithPattern_question_invariants_witness :
    10 < qOut5.question.length ∧ 20 ≤ qOut5.question.length ∧
    containsJapanese qOut5.question = true ∧ 1 ≤ qOut5.questionNumber :=
  detectWithPattern_question_invariants (fun _ => []) textT fiveCfg [mFive] tA qOut5
    (by
      have hqs : (detectWithPattern (fun _ => []) textT fiveCfg [mFive] tA).questions
          = [qOut5] := rfl
      rw [hqs]
      exact List.mem_singleton.mpr rfl)

/-! ## C9 development -/

theorem mkQuestion2_time (cfg : PatternConfig) (t1 t2 : Str) (m : MatchRec) :
    mkQuestion2 cfg t2 m = (mkQuestion2 cfg t1 m).map (setTime t2) := by
  rcases hp : parseIntOpt m.g1 with _ | n
  · simp [mkQuestion2, hp]
  · simp only [mkQuestion2, hp]
    split_ifs <;> simp [setTime]

theorem qStep_time (choicesOf : Str → List Choice) (cfg : PatternConfig)
    (t1 t2 : Str) (m : MatchRec) :
    qStep choicesOf cfg t2 m = (qStep choicesOf cfg t1 m).map (setTime t2) := by
  unfold qStep
  rw [mkQuestion2_time cfg t1 t2 m]
  cases mkQuestion2 cfg t1 m with
  | none => rfl
  | some q0 =>
    have hA : ({ setTime t2 q0 with
          choices := choicesOf (setTime t2 q0).question } : Question)
        = setTime t2 { q0 with choices := choicesOf q0.question } := rfl
    have hv : isValidQuestionBasic (setTime t2 { q0 with choices := choicesOf q0.question })
        = isValidQuestionBasic { q0 with choices := choicesOf q0.question } := rfl
    show (if isValidQuestionBasic { setTime t2 q0 with
            choices := choicesOf (setTime t2 q0).question }
          then some ({ setTime t2 q0 with
            choices := choicesOf (setTime t2 q0).question } : Question) else none)
        = Option.map (setTime t2)
            (if isValidQuestionBasic { q0 with choices := choicesOf q0.question }
             then some ({ q0 with choices := choicesOf q0.question } : Question) else none)
    rw [hA, hv]
    by_cases h : isValidQuestionBasic { q0 with choices := choicesOf q0.question } = true
    · rw [if_pos h, if_pos h]; rfl
    · rw [if_neg h, if_neg h]; rfl

theorem filterMap_ext {α β : Type} (l : List α) (f g : α → Option β)
    (h : ∀ a, f a = g a) : l.filterMap f = l.filterMap g := by
  induction l with
  | nil => rfl
  | cons a l ih => simp [List.filterMap_cons, h, ih]

theorem filterMap_map_right {α β : Type} (l : List α) (f : α → Option β)
    (g : β → β) :
    l.filterMap (fun a => (f a).map g) = (l.filterMap f).map g := by
  induction l with
  | nil => rfl
  | cons a l ih => cases hf : f a <;> simp [List.filterMap_cons, hf, ih]

theorem detectWithPattern_time (choicesOf : Str → List Choice) (text : Str)
    (cfg : PatternConfig) (ms : List MatchRec) (t1 t2 : Str) :
    detectWithPattern choicesOf text cfg ms t2
      = { detectWithPattern choicesOf text cfg ms t1 with
          questions := (detectWithPattern choicesOf text cfg ms t1).questions.map
            (setTime t2) } := by
  have hq : ms.filterMap (qStep choicesOf cfg t2)
      = (ms.filterMap (qStep choicesOf cfg t1)).map (setTime t2) := by
    rw [← filterMap_map_right]
    exact filterMap_ext ms _ _ (qStep_time choicesOf cfg t1 t2)
  unfold detectWithPattern
  simp only [hq, List.length_map]

theorem score_retime (t : Str) (e : DetectionEntry) :
    calculatePatternScore (retimeEntry t e) = calculatePatternScore e := by
  simp [calculatePatternScore, retimeEntry, List.length_map]

theorem detectionResults_time (env : Env) (text t1 t2 : Str) :
    detectionResults env text t2
      = (detectionResults env text t1).map (retimeEntry t2) := by
  unfold detectionResults
  rw [← filterMap_map_right]
  apply filterMap_ext
  intro cfg
  rw [detectWithPattern_time env.choicesOf text cfg (env.matcher cfg text) t1 t2]
  simp only [List.length_map]
  split_ifs <;> simp [retimeEntry]

theorem selectFold_retime_aux (t : Str) (rs : List DetectionEntry) :
    ∀ acc : Option DetectionEntry × ℚ,
      List.foldl
        (fun acc r =>
          if acc.2 < calculatePatternScore r then (some r, calculatePatternScore r)
          else acc)
        (acc.1.map (retimeEntry t), acc.2) (rs.map (retimeEntry t))
      = ((List.foldl
          (fun acc r =>
            if acc.2 < calculatePatternScore r then (some r, calculatePatternScore r)
            else acc) acc rs).1.map (retimeEntry t),
         (List.foldl
          (fun acc r =>
            if acc.2 < calculatePatternScore r then (some r, calculatePatternScore r)
            else acc) acc rs).2) := by
  induction rs with
  | nil => intro acc; rfl
  | cons r rs ih =>
    intro acc
    simp only [List.map_cons, List.foldl_cons, score_retime]
    by_cases h : acc.2 < calculatePatternScore r
    · rw [if_pos h, if_pos h]
      have := ih (some r, calculatePatternScore r)
      simpa using this
    · rw [if_neg h, if_neg h]
      exact ih acc

theorem selectBestPattern_retime (t : Str) (rs : List DetectionEntry) :
    selectBestPattern (rs.map (retimeEntry t))
      = (selectBestPattern rs).map (retimeEntry t) := by
  unfold selectBestPattern selectFold
  have haux := selectFold_retime_aux t rs ((none : Option DetectionEntry), (0:ℚ))
  simp only [Option.map_none'] at haux
  cases rs with
  | nil => rfl
  | cons r rs =>
    have h1 : ((r :: rs).map (retimeEntry t)).isEmpty = false := rfl
    have h2 : (r :: rs).isEmpty = false := rfl
    simp only [h1, h2, Bool.false_eq_true, if_false]
    rw [haux]
    by_cases h20 : (List.foldl
        (fun acc r =>
          if acc.2 < calculatePatternScore r then (some r, calculatePatternScore r)
          else acc) ((none : Option DetectionEntry), (0:ℚ)) (r :: rs)).2 < 20
    · rw [if_pos h20, if_pos h20]
      rfl
    · rw [if_neg h20, if_neg h20]

/-- C9 (amended): adaptive detection is deterministic up to the wall-clock
timestamp recorded in `metadata.extractedAt`: for any fixed match streams
and choice extractor, re-running `detectQuestionsAdaptive` on the same
text selects the same pattern and produces the same question list, field
for field, once the `extractedAt` stamps are rewritten. -/
theorem detectQuestionsAdaptive_deterministic_mod_time (env : Env)
    (text t1 t2 : Str) :
    detectQuestionsAdaptive env text t2
      = (detectQuestionsAdaptive env text t1).map (setTime t2) := by
  unfold detectQuestionsAdaptive
  rw [detectionResults_time env text t1 t2, selectBestPattern_retime]
  cases selectBestPattern (detectionResults env text t1) with
  | none => rfl
  | some b => rfl

theorem dwpYear_questions (t : Str) : (dwpYear t).questions = [qOutYear t] := rfl

theorem dwpFive_questions (t : Str) : (dwpFive t).questions = [qOutFive t] := rfl

theorem matcherT_eval (cfg : PatternConfig) :
    matcherT cfg textT
      = if cfg.ptype = PType.five_digit_number ∨ cfg.ptype = PType.takken_year_number
        then [mFive] else [] := by
  simp [matcherT]

theorem dwp_nil_questions (cfg : PatternConfig) (t : Str) :
    (detectWithPattern (fun _ => ([] : List Choice)) textT cfg [] t).questions = [] := rfl

theorem dwp_mFive_questions (cfg : PatternConfig) (t : Str) :
    (detectWithPattern (fun _ => ([] : List Choice)) textT cfg [mFive] t).questions
      = [{ questionNumber := 10001, question := bodyT, choices := [], answer := none,
           explanation := [], confidence := cfg.confidence * 100,
           metadata := { pattern := cfg.name, extractedAt := t } }] := rfl

theorem resultsT_eval (t : Str) :
    detectionResults envT textT t
      = [⟨fiveCfg, (dwpFive t).questions, (dwpFive t).confidence, (dwpFive t).coverage⟩,
         ⟨yearCfg, (dwpYear t).questions, (dwpYear t).confidence, (dwpYear t).coverage⟩] := by
  unfold detectionResults
  simp only [questionNumberPatterns, envT]
  simp [List.filterMap_cons, matcherT_eval, dwp_nil_questions, dwp_mFive_questions,
    dwpFive, dwpYear, fiveCfg, yearCfg]

theorem dwpFive_conf (t : Str) : (dwpFive t).confidence = 100 := by
  have h1 : (dwpFive t).validQuestions = 1 := by
    show ((dwpFive t).questions).length = 1
    rw [dwpFive_questions]
    rfl
  show (if 0 < ([mFive] : List MatchRec).length then
      (((dwpFive t).validQuestions : ℚ) / ((([mFive] : List MatchRec).length : Nat) : ℚ)) * 100
    else 0) = 100
  rw [h1]
  norm_num

theorem dwpYear_conf (t : Str) : (dwpYear t).confidence = 100 := by
  have h1 : (dwpYear t).validQuestions = 1 := by
    show ((dwpYear t).questions).length = 1
    rw [dwpYear_questions]
    rfl
  show (if 0 < ([mFive] : List MatchRec).length then
      (((dwpYear t).validQuestions : ℚ) / ((([mFive] : List MatchRec).length : Nat) : ℚ)) * 100
    else 0) = 100
  rw [h1]
  norm_num

theorem dwpFive_cov (t : Str) : (dwpFive t).coverage = 50/33 := by
  show (if 0 < textT.length then
      ((([mFive] : List MatchRec).length : ℚ) * 50) / ((textT.length : Nat) : ℚ)
    else 0) = 50/33
  rw [show textT.length = 33 from rfl]
  norm_num

theorem dwpYear_cov (t : Str) : (dwpYear t).coverage = 50/33 := by
  show (if 0 < textT.length then
      ((([mFive] : List MatchRec).length : ℚ) * 50) / ((textT.length : Nat) : ℚ)
    else 0) = 50/33
  rw [show textT.length = 33 from rfl]
  norm_num

theorem scoreFiveT (t : Str) :
    calculatePatternScore
      ⟨fiveCfg, (dwpFive t).questions, (dwpFive t).confidence, (dwpFive t).coverage⟩
      = 6551/165 := by
  unfold calculatePatternScore
  rw [dwpFive_conf, dwpFive_cov]
  rw [show (⟨fiveCfg, (dwpFive t).questions, 100, 50/33⟩ : DetectionEntry).questions
      = (dwpFive t).questions from rfl, dwpFive_questions]
  norm_num [fiveCfg, min_def]

theorem scoreYearT (t : Str) :
    calculatePatternScore
      ⟨yearCfg, (dwpYear t).questions, (dwpYear t).confidence, (dwpYear t).coverage⟩
      = 13267/330 := by
  unfold calculatePatternScore
  rw [dwpYear_conf, dwpYear_cov]
  rw [show (⟨yearCfg, (dwpYear t).questions, 100, 50/33⟩ : DetectionEntry).questions
      = (dwpYear t).questions from rfl, dwpYear_questions]
  norm_num [yearCfg, min_def]

theorem selectT_eval (t : Str) :
    selectBestPattern (detectionResults envT textT t)
      = some ⟨yearCfg, (dwpYear t).questions, (dwpYear t).confidence,
          (dwpYear t).coverage⟩ := by
  rw [resultsT_eval]
  unfold selectBestPattern selectFold
  norm_num [List.foldl_cons, List.foldl_nil, scoreFiveT t, scoreYearT t]

theorem detectQuestionsAdaptive_getD (env : Env) (text now : Str) :
    detectQuestionsAdaptive env text now
      = ((selectBestPattern (detectionResults env text now)).map
          DetectionEntry.questions).getD [] := by
  unfold detectQuestionsAdaptive
  cases selectBestPattern (detectionResults env text now) <;> rfl

theorem adaptiveT_eval (t : Str) :
    detectQuestionsAdaptive envT textT t = [qOutYear t] := by
  rw [detectQuestionsAdaptive_getD, selectT_eval]
  show (dwpYear t).questions = [qOutYear t]
  exact dwpYear_questions t

/-- Counterexample for C9: two runs of the adaptive detection on the
identical text `textT`, at wall-clock instants `tA` and `tB`, produce
question sets that are not equal field for field: the questions'
`metadata.extractedAt` stamps differ. -/
theorem detectQuestionsAdaptive_timestamp_counterexample :
    tA ≠ tB ∧
    detectQuestionsAdaptive envT textT tA ≠ detectQuestionsAdaptive envT textT tB := by
  refine ⟨by decide, ?_⟩
  intro h
  rw [adaptiveT_eval tA, adaptiveT_eval tB] at h
  have h2 := congrArg (fun l => l.map (fun q => q.metadata.extractedAt)) h
  simp only [List.map_cons, List.map_nil] at h2
  rw [show (qOutYear tA).metadata.extractedAt = tA from rfl,
    show (qOutYear tB).metadata.extractedAt = tB from rfl] at h2
  have h5 : tA = tB := by injection h2
  exact absurd h5 (by decide)


/-! ## C8 development -/

theorem digitChar_ne_underscore (d : Nat) : digitChar d ≠ '_' := by
  unfold digitChar
  split <;> decide

theorem digitChar_inj (m n : Nat) (hm : m < 10) (hn : n < 10)
    (h : digitChar m = digitChar n) : m = n := by
  interval_cases m <;> interval_cases n <;> revert h <;> decide

theorem natRepr_lt (n : Nat) (h : n < 10) : natRepr n = [digitChar n] := by
  rw [natRepr.eq_def]
  simp [h]

theorem natRepr_ge (n : Nat) (h : ¬ n < 10) :
    natRepr n = natRepr (n / 10) ++ [digitChar (n % 10)] := by
  rw [natRepr.eq_def]
  simp [h]

theorem natRepr_ne_nil (n : Nat) : natRepr n ≠ [] := by
  by_cases h : n < 10
  · rw [natRepr_lt n h]
    simp
  · rw [natRepr_ge n h]
    simp

theorem underscore_not_mem_natRepr (n : Nat) : '_' ∉ natRepr n := by
  induction n using Nat.strong_induction_on with
  | h n ih =>
    by_cases h : n < 10
    · rw [natRepr_lt n h]
      simp only [List.mem_singleton]
      exact fun hc => digitChar_ne_underscore n hc.symm
    · rw [natRepr_ge n h]
      simp only [List.mem_append, List.mem_singleton]
      rintro (hc | hc)
      · exact ih (n / 10) (Nat.div_lt_self (by omega) (by omega)) hc
      · exact digitChar_ne_underscore (n % 10) hc.symm

theorem natRepr_inj : ∀ (m : Nat), ∀ (n : Nat), natRepr m = natRepr n → m = n := by
  intro m
  induction m using Nat.strong_induction_on with
  | h m ih =>
    intro n h
    by_cases hm : m < 10 <;> by_cases hn : n < 10
    · rw [natRepr_lt m hm, natRepr_lt n hn] at h
      injection h with h1 _
      exact digitChar_inj m n hm hn h1
    · rw [natRepr_lt m hm, natRepr_ge n hn] at h
      have hlen := congrArg List.length h
      simp [List.length_append] at hlen
      exact (natRepr_ne_nil _ hlen).elim
    · rw [natRepr_ge m hm, natRepr_lt n hn] at h
      have hlen := congrArg List.length h
      simp [List.length_append] at hlen
      exact (natRepr_ne_nil _ hlen).elim
    · rw [natRepr_ge m hm, natRepr_ge n hn] at h
      obtain ⟨h1, h2⟩ := List.append_inj' h rfl
      have e1 : m / 10 = n / 10 :=
        ih (m / 10) (Nat.div_lt_self (by omega) (by omega)) (n / 10) h1
      injection h2 with h3 _
      have e2 : m % 10 = n % 10 :=
        digitChar_inj _ _ (Nat.mod_lt _ (by omega)) (Nat.mod_lt _ (by omega)) h3
      omega

theorem sep_split : ∀ (a1 a2 b1 b2 : Str), '_' ∉ a1 → '_' ∉ a2 →
    a1 ++ '_' :: b1 = a2 ++ '_' :: b2 → a1 = a2 ∧ b1 = b2 := by
  intro a1
  induction a1 with
  | nil =>
    intro a2 b1 b2 h1 h2 h
    cases a2 with
    | nil =>
      simp only [List.nil_append] at h
      injection h with _ hb
      exact ⟨rfl, hb⟩
    | cons c a2 =>
      exfalso
      simp only [List.nil_append, List.cons_append, List.cons.injEq] at h
      apply h2
      rw [h.1]
      exact List.mem_cons_self c a2
  | cons c a1 ih =>
    intro a2 b1 b2 h1 h2 h
    cases a2 with
    | nil =>
      exfalso
      simp only [List.nil_append, List.cons_append, List.cons.injEq] at h
      apply h1
      rw [← h.1]
      exact List.mem_cons_self c a1
    | cons d a2 =>
      simp only [List.cons_append, List.cons.injEq] at h
      obtain ⟨hcd, hrest⟩ := h
      have hres := ih a2 b1 b2 (fun hm => h1 (List.mem_cons_of_mem _ hm))
        (fun hm => h2 (List.mem_cons_of_mem _ hm)) hrest
      exact ⟨by rw [hcd, hres.1], hres.2⟩

theorem dupKey_eq_iff (a b : Question) :
    dupKey a = dupKey b ↔
      (a.questionNumber = b.questionNumber ∧ a.question.take 50 = b.question.take 50) := by
  constructor
  · intro h
    unfold dupKey at h
    obtain ⟨h1, h2⟩ := sep_split _ _ _ _ (underscore_not_mem_natRepr _)
      (underscore_not_mem_natRepr _) h
    exact ⟨natRepr_inj _ _ h1, h2⟩
  · intro hc
    unfold dupKey
    rw [hc.1, hc.2]

theorem samePairKey_iff (a b : Question) :
    samePairKey a b = true ↔ dupKey a = dupKey b := by
  simp [samePairKey, dupKey_eq_iff]

theorem removeDupAux_eq_keepFirst : ∀ (l : List Question) (seen : List Str),
    removeDupAux seen l
      = keepFirstByPair (l.filter (fun q => decide (dupKey q ∉ seen))) := by
  intro l
  induction l with
  | nil => intro seen; simp [removeDupAux, keepFirstByPair]
  | cons q qs ih =>
    intro seen
    by_cases hq : dupKey q ∈ seen
    · have hstep : removeDupAux seen (q :: qs) = removeDupAux seen qs := by
        simp only [removeDupAux]
        rw [if_pos hq]
      rw [hstep, List.filter_cons, if_neg (by simp [hq])]
      exact ih seen
    · simp only [removeDupAux]
      rw [if_neg hq, List.filter_cons, if_pos (by simpa using hq)]
      simp only [keepFirstByPair]
      congr 1
      rw [ih (dupKey q :: seen), List.filter_filter]
      apply congrArg
      apply List.filter_congr
      intro r _
      by_cases h1 : dupKey r ∈ seen <;> by_cases h2 : samePairKey q r = true
      · simp [h1, h2, List.mem_cons]
      · simp [h1, h2, List.mem_cons]
      · have hd : dupKey r = dupKey q := ((samePairKey_iff q r).mp h2).symm
        simp [h1, h2, List.mem_cons, hd]
      · have hd : dupKey r ≠ dupKey q := fun e => h2 ((samePairKey_iff q r).mpr e.symm)
        simp [h1, h2, List.mem_cons, hd]

theorem removeDup_eq_keepFirst (l : List Question) :
    removeDuplicateQuestions l = keepFirstByPair l := by
  unfold removeDuplicateQuestions
  rw [removeDupAux_eq_keepFirst]
  apply congrArg
  simp

theorem keepFirst_subset : ∀ (n : Nat) (l : List Question), l.length ≤ n →
    ∀ x ∈ keepFirstByPair l, x ∈ l := by
  intro n
  induction n with
  | zero =>
    intro l hl x hx
    have hnil : l = [] := List.eq_nil_of_length_eq_zero (by omega)
    subst hnil
    simp [keepFirstByPair] at hx
  | succ n ih =>
    intro l hl x hx
    cases l with
    | nil => simp [keepFirstByPair] at hx
    | cons q qs =>
      simp only [keepFirstByPair] at hx
      rcases List.mem_cons.mp hx with h | h
      · simp [h]
      · have hlen : (qs.filter (fun r => !(samePairKey q r))).length ≤ n := by
          have := List.length_filter_le (fun r => !(samePairKey q r)) qs
          simp only [List.length_cons] at hl
          omega
        have hmem := ih _ hlen x h
        exact List.mem_cons_of_mem _ (List.mem_of_mem_filter hmem)

theorem keepFirst_pairwise : ∀ (n : Nat) (l : List Question), l.length ≤ n →
    List.Pairwise (fun a b => samePairKey a b = false) (keepFirstByPair l) := by
  intro n
  induction n with
  | zero =>
    intro l hl
    have hnil : l = [] := List.eq_nil_of_length_eq_zero (by omega)
    subst hnil
    simp [keepFirstByPair]
  | succ n ih =>
    intro l hl
    cases l with
    | nil => simp [keepFirstByPair]
    | cons q qs =>
      simp only [keepFirstByPair]
      refine List.Pairwise.cons ?_ (ih _ ?_)
      · intro b hb
        have hmem := keepFirst_subset (qs.filter (fun r => !(samePairKey q r))).length
          _ (le_refl _) b hb
        have hpred := (List.mem_filter.mp hmem).2
        simpa using hpred
      · have := List.length_filter_le (fun r => !(samePairKey q r)) qs
        simp only [List.length_cons] at hl
        omega

theorem samePairKey_symmetric :
    Symmetric (fun a b : Question => samePairKey a b = false) := by
  intro a b h
  by_cases hb : samePairKey b a = true
  · exfalso
    have hd := (samePairKey_iff b a).mp hb
    have hab := (samePairKey_iff a b).mpr hd.symm
    rw [hab] at h
    exact absurd h (by simp)
  · exact Bool.eq_false_iff.mpr hb

theorem pairwise_sort_dedup (X : List Question) :
    List.Pairwise
      (fun a b => ¬(a.questionNumber = b.questionNumber ∧
        a.question.take 50 = b.question.take 50))
      (sortByNumber (removeDuplicateQuestions X)) := by
  have h1 : List.Pairwise (fun a b => samePairKey a b = false)
      (removeDuplicateQuestions X) := by
    rw [removeDup_eq_keepFirst]
    exact keepFirst_pairwise X.length X (le_refl _)
  have h2 := ((perm_sortByNumber (removeDuplicateQuestions X)).pairwise_iff
    (fun hxy => samePairKey_symmetric hxy)).mpr h1
  refine h2.imp ?_
  intro a b hab hc
  have hab2 : samePairKey a b = false := hab
  have ht := (samePairKey_iff a b).mpr ((dupKey_eq_iff a b).mpr hc)
  rw [hab2] at ht
  exact Bool.false_ne_true ht

/-- C8: in the final array returned by `postProcessQuestions` no two
questions share the key (questionNumber, first 50 characters of the
cleaned question text) — the output is pairwise distinct under the
duplicate criterion — and `removeDuplicateQuestions` keeps exactly the
first question of each key class in processing order, dropping every
later duplicate silently (it coincides with the first-occurrence
filter `keepFirstByPair`). -/
theorem postProcess_no_duplicate_keys :
    (∀ (threshold : ℚ) (now : Str) (qs : List Question),
        List.Pairwise
          (fun a b => ¬(a.questionNumber = b.questionNumber ∧
            a.question.take 50 = b.question.take 50))
          (postProcessQuestions threshold now qs))
    ∧ ∀ l : List Question, removeDuplicateQuestions l = keepFirstByPair l := by
  refine ⟨?_, removeDup_eq_keepFirst⟩
  intro threshold now qs
  unfold postProcessQuestions
  split
  · exact List.Pairwise.nil
  · exact pairwise_sort_dedup _

end Takken
